import Mathlib

/-!
# Verification of the gamer-boy games query / rating / client-cache subsystem

Shallow embedding of the repository's core logic:

* data model (`src/db/schema.ts`): games, categories, game↔category join rows,
  rating rows;
* query layer (`src/modules/games/lib/games.ts`, the module the app routes
  import, and the legacy `src/lib/games.ts`): `getGames`, `getGamesByIds`,
  `getGamesByCategory`, `getRelatedGames`, `attachCategoriesToGames`;
* rating submission (`src/app/api/ratings/[gameId]/route.ts`): validation and
  read-before-write upsert;
* in-memory fixed-window rate limiter (`src/shared/lib/rate-limit.ts`);
* recently-played localStorage cache (`src/shared/lib/local-storage.ts`).

Databases are modelled as lists of rows in storage order; `db.select()...` is
list filtering; JS `Map` grouping is rendered as ordered association lookups;
JS `[...new Set(xs)]` is first-occurrence deduplication.
-/

namespace GamerBoy

/-! ## Data model (`src/db/schema.ts`)

`description`, `thumbnail`, the external player id and the `createdAt`
timestamps are never read by any operation modelled here (they are only
carried through object spreads), so they are omitted from the row types. -/

structure Game where
  id : Nat
  title : String
  slug : String
deriving Repr, DecidableEq

structure Category where
  id : Nat
  name : String
  slug : String
deriving Repr, DecidableEq

structure GameCategory where
  gameId : Nat
  categoryId : Nat
deriving Repr, DecidableEq

/-- The relational store: each table is a list of rows in storage order. -/
structure DB where
  games : List Game
  categories : List Category
  gameCategories : List GameCategory
deriving Repr, DecidableEq

/-- A game together with its resolved categories (the TS `GameWithCategories`
object spread `{ ...game, categories }`). -/
structure GameWithCategories where
  game : Game
  categories : List Category
deriving Repr, DecidableEq

/-! ## JS helpers -/

/-- `[...new Set(xs)]`: deduplication keeping the first occurrence of each
element, in order. -/
def jsDedup (l : List Nat) : List Nat :=
  l.foldl (fun acc a => if a ∈ acc then acc else acc ++ [a]) []

/-! ## Recently-played localStorage cache (`src/shared/lib/local-storage.ts`)

The stored value is an ordered list of `{id, timestamp}` entries; the list
itself (not the browser storage wrapper) is modelled. -/

structure RecentlyPlayedItem where
  id : Nat
  timestamp : Nat
deriving Repr, DecidableEq

def MAX_RECENTLY_PLAYED : Nat := 20

/-- `addRecentlyPlayed(gameId)` acting on the stored list, with `Date.now()`
passed explicitly as `now`: remove any entry with the same id, prepend a fresh
entry, truncate to `MAX_RECENTLY_PLAYED`. -/
def addRecentlyPlayed (now gameId : Nat) (items : List RecentlyPlayedItem) :
    List RecentlyPlayedItem :=
  let items1 := items.filter (fun it => it.id != gameId)
  let items2 := ⟨gameId, now⟩ :: items1
  if MAX_RECENTLY_PLAYED < items2.length then items2.take MAX_RECENTLY_PLAYED
  else items2

/-! ## Fixed-window rate limiter (`src/shared/lib/rate-limit.ts`)

The store maps client identifiers to `{count, resetTime}` entries; the claims
quantify per key, so the state below is a single key's entry.  Times are
`Date.now()` milliseconds. -/

structure RLEntry where
  count : Nat
  resetTime : Nat
deriving Repr, DecidableEq

inductive RLResult where
  | allowed
  | rejected (retryAfter : Nat)
deriving Repr, DecidableEq

/-- One gated request at time `now` for one client key, mirroring the body of
`rateLimit`.  `retryAfter = Math.ceil((resetTime - now) / 1000)`; in the
rejecting branch `now ≤ resetTime`, so the ceiling is `(d + 999) / 1000`. -/
def rateLimitStep (maxRequests windowSeconds now : Nat) (st : Option RLEntry) :
    RLResult × Option RLEntry :=
  match st with
  | some entry =>
    if entry.resetTime < now then
      (.allowed, some ⟨1, now + windowSeconds * 1000⟩)
    else if maxRequests ≤ entry.count then
      (.rejected ((entry.resetTime - now + 999) / 1000), some entry)
    else
      (.allowed, some ⟨entry.count + 1, entry.resetTime⟩)
  | none => (.allowed, some ⟨1, now + windowSeconds * 1000⟩)

/-- Process a sequence of requests (at the given times) for one client key. -/
def rateLimitRun (maxRequests windowSeconds : Nat) (ts : List Nat)
    (st : Option RLEntry) : List RLResult × Option RLEntry :=
  match ts with
  | [] => ([], st)
  | t :: rest =>
    let p := rateLimitStep maxRequests windowSeconds t st
    let q := rateLimitRun maxRequests windowSeconds rest p.2
    (p.1 :: q.1, q.2)

/-- `rateLimitPresets.strict`: 10 requests per 60-second window. -/
def strictMaxRequests : Nat := 10

def strictWindowSeconds : Nat := 60

/-! ## Rating rows and the rating POST endpoint
(`src/app/api/ratings/[gameId]/route.ts`, `src/shared/lib/validation.ts`) -/

structure RatingRow where
  rid : Nat
  gameId : Nat
  userFingerprint : String
  rating : ℚ
  updatedAt : Nat
deriving Repr, DecidableEq

/-- Fresh autoincrement id for an inserted rating row. -/
def nextRatingId (rows : List RatingRow) : Nat :=
  (rows.map (·.rid)).foldl max 0 + 1

/-- The POST upsert: select the first row for `(gameId, fingerprint)`; if one
exists update its value and timestamp (`where eq(ratings.id, existing.id)`),
otherwise insert a new row. -/
def submitRating (rows : List RatingRow) (gameIdNum : Nat) (fingerprint : String)
    (ratingValue : ℚ) (now : Nat) : List RatingRow :=
  match rows.find? (fun r => r.gameId == gameIdNum && r.userFingerprint == fingerprint) with
  | some existing =>
    rows.map (fun r =>
      if r.rid == existing.rid then { r with rating := ratingValue, updatedAt := now } else r)
  | none => rows ++ [⟨nextRatingId rows, gameIdNum, fingerprint, ratingValue, now⟩]

/-- `AVG(rating)` / `COUNT(*)` over the rows of one game (`COALESCE(…, 0)`:
average is 0 when there are no rows). -/
def ratingStats (rows : List RatingRow) (gameIdNum : Nat) : ℚ × Nat :=
  let gameRows := rows.filter (fun r => r.gameId == gameIdNum)
  (if gameRows.isEmpty then 0 else (gameRows.map (·.rating)).sum / gameRows.length,
   gameRows.length)

/-- At most one rating row per `(gameId, userFingerprint)` pair. -/
def RatingKeyUnique (rows : List RatingRow) : Prop :=
  List.Pairwise
    (fun a b => ¬(a.gameId = b.gameId ∧ a.userFingerprint = b.userFingerprint)) rows

/-- A JSON field of the POST body (`undefined`/missing is `null` here; objects
and arrays are irrelevant to the validated fields and folded into `other`). -/
inductive JsonValue where
  | num (q : ℚ)
  | str (s : String)
  | bool (b : Bool)
  | null
  | other
deriving Repr, DecidableEq

structure RatingBody where
  rating : JsonValue
  fingerprint : JsonValue
deriving Repr, DecidableEq

/-- JS truthiness of a JSON value (ℚ has no `NaN`, which is also falsy). -/
def truthy : JsonValue → Bool
  | .num q => q != 0
  | .str s => s != ""
  | .bool b => b
  | .null => false
  | .other => true

/-- The route's rating check, the negation of
`!ratingValue || typeof ratingValue !== "number" || ratingValue < 1 || ratingValue > 5`. -/
def validRatingValue (v : JsonValue) : Bool :=
  match v with
  | .num q => truthy (.num q) && decide ((1 : ℚ) ≤ q) && decide (q ≤ (5 : ℚ))
  | _ => false

/-- The route's fingerprint check, the negation of
`!fingerprint || typeof fingerprint !== "string"`. -/
def validFingerprint (v : JsonValue) : Bool :=
  match v with
  | .str s => s != ""
  | _ => false

/-- `true` iff the POST body passes validation and the handler proceeds to the
upsert; `false` iff it is rejected with a 400 `BadRequestError`. -/
def ratingPostValidates (b : RatingBody) : Bool :=
  validRatingValue b.rating && validFingerprint b.fingerprint

/-- `submitRatingSchema` (`validation.ts`):
`z.object({ rating: z.number().min(1).max(5), fingerprint: z.string().min(1) })`. -/
def submitRatingSchemaAccepts (b : RatingBody) : Bool :=
  (match b.rating with
   | .num q => decide ((1 : ℚ) ≤ q) && decide (q ≤ (5 : ℚ))
   | _ => false)
  && (match b.fingerprint with
      | .str s => decide (1 ≤ s.length)
      | _ => false)

/-! ## Query layer (`src/modules/games/lib/games.ts`) -/

/-- `like(games.title, '%' + pattern + '%')`: case-insensitive substring match
(SQLite `LIKE` is case-insensitive over ASCII). -/
def likeTitle (pattern title : String) : Bool :=
  (List.range (title.toLower.toList.length + 1)).any
    (fun i => pattern.toLower.toList.isPrefixOf (title.toLower.toList.drop i))

/-- First resolved category of a game-category join row, `leftJoin` +
`if (category)` guard rendered as a lookup in the category table. -/
def lookupCategory (db : DB) (categoryId : Nat) : Option Category :=
  db.categories.find? (fun c => c.id == categoryId)

/-- `attachCategoriesToGames`: one join query over the page's game ids, grouped
by game id in row order and attached to each game (games without resolved
categories get `[]`). -/
def attachCategoriesToGames (db : DB) (gamesList : List Game) :
    List GameWithCategories :=
  if gamesList.isEmpty then []
  else
    let gameIds := gamesList.map (·.id)
    let joinRows := (db.gameCategories.filter (fun gc => gameIds.contains gc.gameId)).map
      (fun gc => (gc.gameId, lookupCategory db gc.categoryId))
    gamesList.map (fun g =>
      { game := g
        categories := joinRows.filterMap (fun r => if r.1 == g.id then r.2 else none) })

/-- The combined WHERE predicate of `getGames`: the search condition is pushed
only when `search` is truthy (present and non-empty), the `inArray` condition
only when a category filter resolved to a game-id set. -/
def gameMatches (search : Option String) (gameIds? : Option (List Nat)) (g : Game) : Bool :=
  (match search with
   | some s => if s == "" then true else likeTitle s g.title
   | none => true)
  && (match gameIds? with
      | some gids => gids.contains g.id
      | none => true)

/-- Category-filter resolution at the top of `getGames`: `none` is the early
`return { games: [], totalCount: 0 }`; `some gameIds?` proceeds with an
optional `inArray(games.id, gameIds)` condition. -/
def categoryGameIds (db : DB) (categoryFilter : Option (List String)) :
    Option (Option (List Nat)) :=
  match categoryFilter with
  | some filt =>
    if 0 < filt.length then
      let foundCategories := db.categories.filter (fun c => filt.contains c.slug)
      if foundCategories.isEmpty then none
      else
        let categoryIds := foundCategories.map (·.id)
        let relations := db.gameCategories.filter
          (fun gc => categoryIds.contains gc.categoryId)
        let gameIds := jsDedup (relations.map (·.gameId))
        if gameIds.isEmpty then none else some (some gameIds)
    else some none
  | none => some none

/-- Number of data-store queries issued by the category-resolution block of
`getGames` (0 without a non-empty filter; 1 when the slug lookup comes back
empty; 2 otherwise). -/
def categoryResolutionQueries (db : DB) (categoryFilter : Option (List String)) : Nat :=
  match categoryFilter with
  | some filt =>
    if 0 < filt.length then
      let foundCategories := db.categories.filter (fun c => filt.contains c.slug)
      if foundCategories.isEmpty then 1 else 2
    else 0
  | none => 0

structure GamesResult where
  games : List GameWithCategories
  totalCount : Nat
deriving Repr, DecidableEq

/-- `getGames({search, categories, page = 1, limit = 12})`
(`PAGINATION.DEFAULT_PAGE = 1`, `PAGINATION.DEFAULT_PAGE_SIZE = 12`): resolve
the category filter, run one count query and one `LIMIT limit OFFSET
(page-1)*limit` select against the combined WHERE clause, and attach
categories to the returned page; an empty page returns
`{ games: [], totalCount: 0 }`. -/
def getGames (db : DB) (search : Option String) (categoryFilter : Option (List String))
    (page : Nat := 1) (limit : Nat := 12) : GamesResult :=
  let offset := (page - 1) * limit
  match categoryGameIds db categoryFilter with
  | none => { games := [], totalCount := 0 }
  | some gameIds? =>
    let matchingGames := db.games.filter (gameMatches search gameIds?)
    let totalCount := matchingGames.length
    let paginatedGames := (matchingGames.drop offset).take limit
    if paginatedGames.isEmpty then { games := [], totalCount := 0 }
    else { games := attachCategoriesToGames db paginatedGames, totalCount := totalCount }

/-- The games satisfying `getGames`'s WHERE clause (what its count query
counts); empty when category resolution early-returns. -/
def getGamesMatches (db : DB) (search : Option String)
    (categoryFilter : Option (List String)) : List Game :=
  match categoryGameIds db categoryFilter with
  | none => []
  | some gameIds? => db.games.filter (gameMatches search gameIds?)

/-- Number of data-store queries issued by one `getGames` invocation: the
category-resolution queries, plus the count query and the page select, plus
the single join of `attachCategoriesToGames` when the page is non-empty. -/
def getGamesQueryCount (db : DB) (search : Option String)
    (categoryFilter : Option (List String)) (page : Nat := 1) (limit : Nat := 12) : Nat :=
  let offset := (page - 1) * limit
  match categoryGameIds db categoryFilter with
  | none => categoryResolutionQueries db categoryFilter
  | some gameIds? =>
    let matchingGames := db.games.filter (gameMatches search gameIds?)
    let paginatedGames := (matchingGames.drop offset).take limit
    categoryResolutionQueries db categoryFilter + 2 +
      (if paginatedGames.isEmpty then 0 else 1)

/-- `getGamesByIds`: select the rows whose id is in `ids` (in storage order),
attach categories, then project through a `Map` in input-id order, dropping
ids without a row.  `new Map(entries)` keeps the last entry per key, hence the
reversed `find?`. -/
def getGamesByIds (db : DB) (ids : List Nat) : List GameWithCategories :=
  if ids.isEmpty then []
  else
    let selectedGames := db.games.filter (fun g => ids.contains g.id)
    if selectedGames.isEmpty then []
    else
      let gamesWithCategories := attachCategoriesToGames db selectedGames
      ids.filterMap (fun i => gamesWithCategories.reverse.find? (fun g => g.game.id == i))

/-- `getAllGames` (module version): full table read plus category attachment. -/
def getAllGames (db : DB) : List GameWithCategories :=
  attachCategoriesToGames db db.games

/-- `getGamesByCategory(categorySlugs)` (array form): the sentinel handling
`slugArray.length === 0 || slugArray.includes("all") || slugArray[0] === ""`
falls back to `getAllGames`. -/
def getGamesByCategory (db : DB) (categorySlugs : List String) :
    List GameWithCategories :=
  if categorySlugs.isEmpty || categorySlugs.contains "all"
      || categorySlugs.head? == some "" then
    getAllGames db
  else
    let foundCategories := db.categories.filter (fun c => categorySlugs.contains c.slug)
    if foundCategories.isEmpty then []
    else
      let categoryIds := foundCategories.map (·.id)
      let relations := db.gameCategories.filter
        (fun gc => categoryIds.contains gc.categoryId)
      let gameIds := jsDedup (relations.map (·.gameId))
      if gameIds.isEmpty then []
      else attachCategoriesToGames db (db.games.filter (fun g => gameIds.contains g.id))

/-- Response shape of `GET /api/games`. -/
structure GamesResponse where
  games : List GameWithCategories
  page : Nat
  limit : Nat
  total : Nat
  hasMore : Bool
deriving Repr, DecidableEq

/-- `GET /api/games` (`src/app/api/games/route.ts`) after query-string
parsing: `page` defaults to 1 and `limit` to 12 (`searchParams.get(…) ||
default`), both passed to `getGames` unchanged — no cap is applied — and
`hasMore = page * limit < totalCount`. -/
def gamesRouteGET (db : DB) (pageParam limitParam : Option Nat)
    (q : Option String) (categoriesParam : Option (List String)) : GamesResponse :=
  let page := pageParam.getD 1
  let limit := limitParam.getD 12
  let r := getGames db q categoriesParam page limit
  ⟨r.games, page, limit, r.totalCount, decide (page * limit < r.totalCount)⟩

/-! ## Related games

Two implementations exist in the repository: the module version
(`src/modules/games/lib/games.ts`, imported by the app's game page through
`@/modules/games/lib`) and the legacy version (`src/lib/games.ts`). -/

/-- `getRelatedGames` (module version): collect the target's category ids,
collect join rows of other games in those categories, and take the **first
`limit` distinct** game ids in join-row order — no shared-count ranking. -/
def getRelatedGames (db : DB) (gameId : Nat) (limit : Nat := 4) :
    List GameWithCategories :=
  let gameRelations := db.gameCategories.filter (fun gc => gc.gameId == gameId)
  if gameRelations.isEmpty then []
  else
    let categoryIds := gameRelations.map (·.categoryId)
    let relatedRelations := db.gameCategories.filter
      (fun gc => categoryIds.contains gc.categoryId && gc.gameId != gameId)
    let relatedGameIds := (jsDedup (relatedRelations.map (·.gameId))).take limit
    if relatedGameIds.isEmpty then []
    else attachCategoriesToGames db (db.games.filter (fun g => relatedGameIds.contains g.id))

/-- `getGameById` (legacy `src/lib/games.ts`): the game row plus its resolved
categories. -/
def getGameById_legacy (db : DB) (id : Nat) : Option GameWithCategories :=
  match db.games.find? (fun g => g.id == id) with
  | none => none
  | some g =>
    let relations := db.gameCategories.filter (fun gc => gc.gameId == id)
    let categoryIds := relations.map (·.categoryId)
    let cats :=
      if categoryIds.isEmpty then []
      else db.categories.filter (fun c => categoryIds.contains c.id)
    some ⟨g, cats⟩

/-- Join rows of games sharing a category with the target, excluding the
target (the `relations` query of the legacy `getRelatedGames`). -/
def legacyRelatedRelations (db : DB) (currentGameId : Nat) : List GameCategory :=
  match getGameById_legacy db currentGameId with
  | none => []
  | some currentGame =>
    let categoryIds := currentGame.categories.map (·.id)
    db.gameCategories.filter
      (fun gc => categoryIds.contains gc.categoryId && gc.gameId != currentGameId)

/-- One step of the JS `Map`-based counting
(`counts.set(rel.gameId, (counts.get(rel.gameId) || 0) + 1)`), on an
insertion-ordered association list. -/
def jsCountBump (acc : List (Nat × Nat)) (g : Nat) : List (Nat × Nat) :=
  if acc.any (fun p => p.1 == g) then
    acc.map (fun p => if p.1 == g then (p.1, p.2 + 1) else p)
  else acc ++ [(g, 1)]

/-- Occurrence counts of a list of ids, in first-occurrence order (a JS `Map`
filled by iterating the list). -/
def countsList (l : List Nat) : List (Nat × Nat) :=
  l.foldl (fun acc g => jsCountBump acc g) []

/-- `gameCategoryCounts` of the legacy `getRelatedGames`: per-candidate
shared-join-row counts in first-occurrence order. -/
def legacyCounts (db : DB) (currentGameId : Nat) : List (Nat × Nat) :=
  countsList ((legacyRelatedRelations db currentGameId).map (·.gameId))

/-- The comparator `(a, b) => b[1] - a[1]`: `a` may stay before `b` iff
`b.2 ≤ a.2` (descending by count). -/
def countGE (a b : Nat × Nat) : Prop := b.2 ≤ a.2

instance : DecidableRel countGE := fun a b => Nat.decLe b.2 a.2

instance : IsTotal (Nat × Nat) countGE := ⟨fun a b => Nat.le_total b.2 a.2⟩

instance : IsTrans (Nat × Nat) countGE := ⟨fun _ _ _ h1 h2 => Nat.le_trans h2 h1⟩

/-- `Array.from(counts.entries()).sort((a,b) => b[1] - a[1]).slice(0, limit)
.map(([gameId]) => gameId)`: JS `sort` is stable, rendered as stable insertion
sort by descending count, then top `limit`. -/
def legacySortedGameIds (db : DB) (currentGameId limit : Nat) : List Nat :=
  (((legacyCounts db currentGameId).insertionSort countGE).take limit).map (·.1)

/-- `getRelatedGames` (legacy `src/lib/games.ts`): count shared categories per
candidate, sort descending, take the top `limit`, then fetch those games (in
storage order) and attach categories. -/
def getRelatedGames_legacy (db : DB) (currentGameId : Nat) (limit : Nat := 4) :
    List GameWithCategories :=
  match getGameById_legacy db currentGameId with
  | none => []
  | some currentGame =>
    if currentGame.categories.isEmpty then []
    else
      let sortedGameIds := legacySortedGameIds db currentGameId limit
      if sortedGameIds.isEmpty then []
      else
        let relatedGames := db.games.filter (fun g => sortedGameIds.contains g.id)
        let allRelations := db.gameCategories.filter
          (fun gc => sortedGameIds.contains gc.gameId)
        relatedGames.map (fun g =>
          ⟨g, allRelations.filterMap (fun gc =>
            if gc.gameId == g.id then lookupCategory db gc.categoryId else none)⟩)

/-- Modelled from the spec's words (§4.1 `getRelatedGames`), for comparison
with the implementations: find the target's category ids, find the other
games sharing at least one, count shared categories per candidate, sort by
shared count descending (stably; the spec leaves the tie-break unspecified)
and take the top `limit`. -/
def specRelatedIds (db : DB) (gameId limit : Nat) : List Nat :=
  let targetCats := (db.gameCategories.filter (fun gc => gc.gameId == gameId)).map
    (·.categoryId)
  let candidates := jsDedup ((db.gameCategories.filter
    (fun gc => targetCats.contains gc.categoryId && gc.gameId != gameId)).map (·.gameId))
  let counts := candidates.map (fun g => (g,
    ((db.gameCategories.filter
      (fun gc => gc.gameId == g && targetCats.contains gc.categoryId)).map
        (·.categoryId)).length))
  ((counts.insertionSort countGE).take limit).map (·.1)

/-! ## Concrete stores used for witnesses and counterexamples -/

/-- Games 2 and 3 both relate to game 1: game 2 shares one category, game 3
shares two, but game 2's join rows come first in storage order. -/
def db4 : DB :=
  ⟨[⟨1, "a", "a"⟩, ⟨2, "b", "b"⟩, ⟨3, "c", "c"⟩],
   [⟨1, "X", "x"⟩, ⟨2, "Y", "y"⟩],
   [⟨1, 1⟩, ⟨1, 2⟩, ⟨2, 1⟩, ⟨3, 1⟩, ⟨3, 2⟩]⟩

/-- One game tagged with one category. -/
def dbOne : DB :=
  ⟨[⟨1, "Super Runner", "super-runner"⟩], [⟨1, "Action", "action"⟩], [⟨1, 1⟩]⟩

/-- 101 untagged games with ids 1..101. -/
def db101 : DB :=
  ⟨(List.range 101).map (fun i => ⟨i + 1, "g", "g"⟩), [], []⟩

/-! ## Theorems -/

/-- Both branches of the final truncation collapse to a single `take`. -/
theorem addRecentlyPlayed_eq_take (now gameId : Nat) (items : List RecentlyPlayedItem) :
    addRecentlyPlayed now gameId items =
      ((⟨gameId, now⟩ : RecentlyPlayedItem) ::
        items.filter (fun it => it.id != gameId)).take MAX_RECENTLY_PLAYED := by
  unfold addRecentlyPlayed
  by_cases h : MAX_RECENTLY_PLAYED <
      ((⟨gameId, now⟩ : RecentlyPlayedItem) ::
        items.filter (fun it => it.id != gameId) : List RecentlyPlayedItem).length
  · simp only [h, if_true]
  · simp only [h, if_false]
    exact (List.take_of_length_le (Nat.le_of_not_lt h)).symm

/-- C8: after every `addRecentlyPlayed`, the recently-played list is
deduplicated (given it was before), holds at most 20 entries, and has the
fresh `{id, timestamp}` entry at the front; its id sequence is the new id
followed by the old ids minus that id, truncated to 20.  Concretely, adding
ids 1..21 in sequence and then adding 1 again yields exactly 20 entries with
1 at the front and the oldest surviving entry evicted. -/
theorem recentlyPlayed_bounded_dedup_front :
    (∀ (items : List RecentlyPlayedItem) (now gameId : Nat),
        (items.map (·.id)).Nodup →
        ((addRecentlyPlayed now gameId items).map (·.id)).Nodup ∧
          (addRecentlyPlayed now gameId items).length ≤ MAX_RECENTLY_PLAYED ∧
          (addRecentlyPlayed now gameId items).head? = some ⟨gameId, now⟩ ∧
          (addRecentlyPlayed now gameId items).map (·.id) =
            (gameId :: (items.map (·.id)).filter (fun i => i != gameId)).take
              MAX_RECENTLY_PLAYED) ∧
      ((List.range 21).foldl (fun acc i => addRecentlyPlayed (i + 1) (i + 1) acc) []
          |> addRecentlyPlayed 22 1
          |> fun s => s.length = 20 ∧ s.head?.map (·.id) = some 1 ∧
            s.map (·.id) = 1 :: (List.range' 3 19).reverse) := by
  constructor
  · intro items now gameId hnd
    have hids : (addRecentlyPlayed now gameId items).map (·.id) =
        (gameId :: (items.map (·.id)).filter (fun i => i != gameId)).take
          MAX_RECENTLY_PLAYED := by
      rw [addRecentlyPlayed_eq_take, List.map_take, List.map_cons]
      congr 1
      simp [List.filter_map, Function.comp_def]
    refine ⟨?_, ?_, ?_, hids⟩
    · rw [hids]
      refine (List.take_sublist _ _).nodup ?_
      refine List.Nodup.cons ?_ (hnd.filter _)
      intro hmem
      exact absurd (List.of_mem_filter hmem) (by simp)
    · rw [addRecentlyPlayed_eq_take]
      exact List.length_take_le _ _
    · rw [addRecentlyPlayed_eq_take]
      rfl
  · decide

theorem recentlyPlayed_bounded_dedup_front_witness :
    (([] : List RecentlyPlayedItem).map (·.id)).Nodup ∧
      ((addRecentlyPlayed 5 3 []).map (·.id)).Nodup ∧
      (addRecentlyPlayed 5 3 []).length ≤ MAX_RECENTLY_PLAYED ∧
      (addRecentlyPlayed 5 3 []).head? = some ⟨3, 5⟩ := by
  refine ⟨by decide, ?_, ?_, ?_⟩
  · exact (recentlyPlayed_bounded_dedup_front.1 [] 5 3 (by decide)).1
  · exact (recentlyPlayed_bounded_dedup_front.1 [] 5 3 (by decide)).2.1
  · exact (recentlyPlayed_bounded_dedup_front.1 [] 5 3 (by decide)).2.2.1

/-- From an in-window state with spare budget, every further in-window request
is allowed and only increments the counter. -/
theorem rateLimitRun_inWindow (maxR winS : Nat) (rest : List Nat) (k R : Nat)
    (hk : k + rest.length ≤ maxR) (hw : ∀ t ∈ rest, t ≤ R) :
    rateLimitRun maxR winS rest (some ⟨k, R⟩) =
      (List.replicate rest.length .allowed, some ⟨k + rest.length, R⟩) := by
  induction rest generalizing k with
  | nil => simp [rateLimitRun]
  | cons t ts ih =>
    have ht : ¬ R < t := Nat.not_lt.mpr (hw t (by simp))
    have hcount : ¬ maxR ≤ k := by simp at hk; omega
    have hstep : rateLimitStep maxR winS t (some ⟨k, R⟩) =
        (.allowed, some ⟨k + 1, R⟩) := by
      rw [rateLimitStep]
      simp [ht, hcount]
    simp only [rateLimitRun]
    rw [hstep]
    rw [ih (k + 1) (by simp at hk ⊢; omega) (fun t' ht' => hw t' (by simp [ht']))]
    simp [List.replicate_succ]
    omega

/-- C3: under the `strict` preset (10 requests / 60 s) and starting from an
empty store, a first request at `t0` followed by up to 9 further requests
inside the window all succeed, leaving the counter at the number of requests;
an 11th request strictly inside the window is rejected with
`retryAfter = ⌈(windowResetAt − now)/1000⌉ > 0`; and once `now` exceeds
`windowResetAt` the counter resets to 1 and the request succeeds. -/
theorem rateLimit_strict_window_spec :
    (∀ (t0 : Nat) (rest : List Nat), rest.length < strictMaxRequests →
        (∀ t ∈ rest, t ≤ t0 + strictWindowSeconds * 1000) →
        rateLimitRun strictMaxRequests strictWindowSeconds (t0 :: rest) none =
          (List.replicate (rest.length + 1) .allowed,
            some ⟨rest.length + 1, t0 + strictWindowSeconds * 1000⟩)) ∧
      (∀ (R t : Nat), t < R →
        rateLimitStep strictMaxRequests strictWindowSeconds t
            (some ⟨strictMaxRequests, R⟩) =
          (.rejected ((R - t + 999) / 1000), some ⟨strictMaxRequests, R⟩) ∧
          0 < (R - t + 999) / 1000) ∧
      (∀ (entry : RLEntry) (t : Nat), entry.resetTime < t →
        rateLimitStep strictMaxRequests strictWindowSeconds t (some entry) =
          (.allowed, some ⟨1, t + strictWindowSeconds * 1000⟩)) := by
  refine ⟨?_, ?_, ?_⟩
  · intro t0 rest hlen hw
    have hM : strictMaxRequests = 10 := rfl
    have h1 : rateLimitStep strictMaxRequests strictWindowSeconds t0 none =
        (.allowed, some ⟨1, t0 + strictWindowSeconds * 1000⟩) := rfl
    simp only [rateLimitRun]
    rw [h1]
    rw [rateLimitRun_inWindow strictMaxRequests strictWindowSeconds rest 1
      (t0 + strictWindowSeconds * 1000) (by omega) hw]
    simp [List.replicate_succ, Nat.add_comm]
  · intro R t hlt
    constructor
    · rw [rateLimitStep]
      simp [Nat.not_lt.mpr (Nat.le_of_lt hlt)]
    · have : (1 : Nat) * 1000 ≤ R - t + 999 := by omega
      exact Nat.le_div_iff_mul_le (by omega) |>.mpr this
  · intro entry t hlt
    rw [rateLimitStep]
    simp [hlt]

theorem rateLimit_strict_window_spec_witness :
    (rateLimitRun strictMaxRequests strictWindowSeconds (0 :: List.replicate 9 0) none =
        (List.replicate 10 .allowed, some ⟨10, 60000⟩)) ∧
      (rateLimitStep strictMaxRequests strictWindowSeconds 30000
          (some ⟨strictMaxRequests, 60000⟩) =
          (.rejected 30, some ⟨strictMaxRequests, 60000⟩) ∧
        (0 : Nat) < 30) ∧
      rateLimitStep strictMaxRequests strictWindowSeconds 60001 (some ⟨10, 60000⟩) =
        (.allowed, some ⟨1, 120001⟩) := by
  refine ⟨?_, ?_, ?_⟩
  · have h := rateLimit_strict_window_spec.1 0 (List.replicate 9 0) (by decide) (by decide)
    simpa [strictWindowSeconds] using h
  · have h := rateLimit_strict_window_spec.2.1 60000 30000 (by decide)
    simpa using h
  · have h := rateLimit_strict_window_spec.2.2 ⟨10, 60000⟩ 60001 (by decide)
    simpa [strictWindowSeconds] using h

/-- C2: submitting ratings 5, 3, 1 for game 7 from three distinct fingerprints
yields average 3 and count 3; a fourth submission from the first fingerprint
updates that row's value and timestamp and leaves the count at 3; and every
sequential submission preserves "at most one rating row per
(gameId, userFingerprint)". -/
theorem ratingUpsert_average_and_key_unique :
    (ratingStats (submitRating (submitRating (submitRating [] 7 "f1" 5 100)
          7 "f2" 3 101) 7 "f3" 1 102) 7 = (3, 3) ∧
      ratingStats (submitRating (submitRating (submitRating (submitRating []
          7 "f1" 5 100) 7 "f2" 3 101) 7 "f3" 1 102) 7 "f1" 4 103) 7 = (8 / 3, 3) ∧
      (submitRating (submitRating (submitRating (submitRating [] 7 "f1" 5 100)
          7 "f2" 3 101) 7 "f3" 1 102) 7 "f1" 4 103).length = 3 ∧
      ((submitRating (submitRating (submitRating (submitRating [] 7 "f1" 5 100)
          7 "f2" 3 101) 7 "f3" 1 102) 7 "f1" 4 103).find?
          (fun r => r.userFingerprint == "f1")).map
        (fun r => (r.rating, r.updatedAt)) = some (4, 103)) ∧
      ∀ (rows : List RatingRow) (g : Nat) (fp : String) (v : ℚ) (now : Nat),
        RatingKeyUnique rows → RatingKeyUnique (submitRating rows g fp v now) := by
  have h3 : submitRating (submitRating (submitRating [] 7 "f1" 5 100)
      7 "f2" 3 101) 7 "f3" 1 102 =
      [⟨1, 7, "f1", 5, 100⟩, ⟨2, 7, "f2", 3, 101⟩, ⟨3, 7, "f3", 1, 102⟩] := rfl
  have h4 : submitRating (submitRating (submitRating (submitRating []
      7 "f1" 5 100) 7 "f2" 3 101) 7 "f3" 1 102) 7 "f1" 4 103 =
      [⟨1, 7, "f1", 4, 103⟩, ⟨2, 7, "f2", 3, 101⟩, ⟨3, 7, "f3", 1, 102⟩] := by
    rw [h3]
    exact rfl
  constructor
  · rw [h4, h3]
    refine ⟨?_, ?_, rfl, rfl⟩
    · simp [ratingStats]
      norm_num
    · simp [ratingStats]
      norm_num
  · intro rows g fp v now h
    unfold RatingKeyUnique at h ⊢
    unfold submitRating
    cases hfind : rows.find? (fun r => r.gameId == g && r.userFingerprint == fp) with
    | some existing =>
      simp only []
      refine List.pairwise_map.mpr (h.imp ?_)
      intro a b hab hcontra
      apply hab
      by_cases ha : (a.rid == existing.rid) = true <;>
        by_cases hb : (b.rid == existing.rid) = true <;>
        simpa [ha, hb] using hcontra
    | none =>
      have hnone := List.find?_eq_none.mp hfind
      simp only []
      rw [List.pairwise_append]
      refine ⟨h, List.pairwise_singleton _ _, ?_⟩
      intro a ha b hb
      simp only [List.mem_singleton] at hb
      subst hb
      intro hcontra
      have hn := hnone a ha
      simp only [Bool.and_eq_true, beq_iff_eq, not_and] at hn
      exact hn hcontra.1 hcontra.2

theorem ratingUpsert_average_and_key_unique_witness :
    RatingKeyUnique [] ∧ RatingKeyUnique (submitRating [] 7 "f1" 5 100) :=
  ⟨List.Pairwise.nil,
    ratingUpsert_average_and_key_unique.2 [] 7 "f1" 5 100 List.Pairwise.nil⟩

/-- C7 counterexample: the body `{rating: 4.5, fingerprint: "fp"}` passes the
route's manual validation and the zod `submitRatingSchema` (neither requires
an integer), although 4.5 is not in {1,2,3,4,5} — so the POST endpoint does
not reject every non-integer rating strictly between 1 and 5. -/
theorem ratingValidation_accepts_noninteger :
    ratingPostValidates ⟨.num (9 / 2), .str "fp"⟩ = true ∧
      submitRatingSchemaAccepts ⟨.num (9 / 2), .str "fp"⟩ = true ∧
      (9 / 2 : ℚ) ≠ 1 ∧ (9 / 2 : ℚ) ≠ 2 ∧ (9 / 2 : ℚ) ≠ 3 ∧
      (9 / 2 : ℚ) ≠ 4 ∧ (9 / 2 : ℚ) ≠ 5 := by
  refine ⟨?_, ?_, by norm_num, by norm_num, by norm_num, by norm_num, by norm_num⟩
  · simp only [ratingPostValidates, validRatingValue, validFingerprint, truthy,
      Bool.and_eq_true, bne_iff_ne, ne_eq, decide_eq_true_eq]
    norm_num
    decide
  · simp only [submitRatingSchemaAccepts, Bool.and_eq_true, decide_eq_true_eq]
    norm_num [String.length]

/-- C7 amended: the POST validation accepts a body exactly when the rating is
a number in the closed interval [1, 5] (integers not required) and the
fingerprint is a non-empty string, and the manual route check agrees with the
zod `submitRatingSchema` on every body. -/
theorem ratingValidation_range_spec :
    ∀ b : RatingBody,
      (ratingPostValidates b = true ↔
        (∃ q : ℚ, b.rating = .num q ∧ 1 ≤ q ∧ q ≤ 5) ∧
          (∃ s : String, b.fingerprint = .str s ∧ s ≠ "")) ∧
      ratingPostValidates b = submitRatingSchemaAccepts b := by
  have hnum : ∀ q : ℚ, validRatingValue (.num q) = (decide (1 ≤ q) && decide (q ≤ 5)) := by
    intro q
    by_cases h1 : (1 : ℚ) ≤ q
    · have h0 : (q != 0) = true := by
        simp only [bne_iff_ne, ne_eq]
        intro h; rw [h] at h1; norm_num at h1
      simp [validRatingValue, truthy, h0]
    · simp [validRatingValue, truthy, h1]
  have hlen : ∀ s : String, (decide (1 ≤ s.length)) = (s != "") := by
    intro s
    rcases Nat.eq_zero_or_pos s.length with h | h
    · have : s = "" := by
        cases s with
        | mk data => simp [String.length] at h; simp [h]
      simp [this]
    · have hne : s ≠ "" := by
        intro he
        rw [he] at h
        simp at h
      simp [Nat.one_le_iff_ne_zero.mpr (Nat.pos_iff_ne_zero.mp h), hne]
  have hval : ∀ v, validRatingValue v =
      (match v with
       | JsonValue.num q => decide ((1 : ℚ) ≤ q) && decide (q ≤ (5 : ℚ))
       | _ => false) := by
    intro v
    cases v
    case num q => exact hnum q
    all_goals rfl
  intro ⟨r, f⟩
  constructor
  · cases r <;> cases f <;>
      simp [ratingPostValidates, hval, validFingerprint, and_assoc]
  · cases r <;> cases f <;>
      simp [ratingPostValidates, hval, validFingerprint,
        submitRatingSchemaAccepts, hlen]

/-- Attaching categories decorates the page but leaves the game rows and
their order unchanged. -/
theorem attach_map_game (db : DB) (l : List Game) :
    (attachCategoriesToGames db l).map (·.game) = l := by
  unfold attachCategoriesToGames
  by_cases h : l.isEmpty
  · rw [List.isEmpty_iff] at h
    simp [h]
  · simp [h, List.map_map, Function.comp_def]

/-- A game id occurs among the attached page exactly when it occurs in the
underlying page. -/
theorem exists_attach_iff (db : DB) (l : List Game) (i : Nat) :
    (∃ x ∈ attachCategoriesToGames db l, x.game.id = i) ↔ ∃ g ∈ l, g.id = i := by
  constructor
  · rintro ⟨x, hx, hxi⟩
    refine ⟨x.game, ?_, hxi⟩
    rw [← attach_map_game db l]
    exact List.mem_map_of_mem _ hx
  · rintro ⟨g, hg, hgi⟩
    rw [← attach_map_game db l] at hg
    obtain ⟨x, hx, hxg⟩ := List.mem_map.mp hg
    exact ⟨x, hx, by rw [hxg]; exact hgi⟩

/-- Projecting a `Map`-lookup pass over a query list keeps the query's order
and drops exactly the ids that have no row. -/
theorem map_id_filterMap_find (query : List Nat) (sel : List GameWithCategories) :
    (query.filterMap (fun i => sel.find? (fun g => g.game.id == i))).map (·.game.id) =
      query.filter (fun i => decide (∃ x ∈ sel, x.game.id = i)) := by
  induction query with
  | nil => rfl
  | cons i rest ih =>
    rw [List.filterMap_cons, List.filter_cons]
    cases hfind : sel.find? (fun g => g.game.id == i) with
    | none =>
      have hnone : ¬ ∃ x ∈ sel, x.game.id = i := by
        rintro ⟨x, hx, hxi⟩
        have := List.find?_eq_none.mp hfind x hx
        simp [hxi] at this
      simp [hnone, ih]
    | some g =>
      have hgi : g.game.id = i := by
        have := List.find?_some hfind
        simpa using this
      have hex : ∃ x ∈ sel, x.game.id = i :=
        ⟨g, List.mem_of_find?_eq_some hfind, hgi⟩
      simp [hex, ih, hgi]

/-- C1: `getGamesByIds` returns one game per input id that has a row, in
exactly the input order (ids without a row are silently dropped), and every
returned row is a game from the store — independently of the order in which
storage returns rows, since the store `db` is universally quantified. -/
theorem getGamesByIds_preserves_input_order (db : DB) (ids : List Nat) :
    (getGamesByIds db ids).map (·.game.id) =
        ids.filter (fun i => decide (i ∈ db.games.map (·.id))) ∧
      ∀ x ∈ getGamesByIds db ids, x.game ∈ db.games := by
  simp only [getGamesByIds]
  by_cases hids : ids.isEmpty = true
  · rw [if_pos hids]
    rw [List.isEmpty_iff] at hids
    subst hids
    exact ⟨rfl, by intro x hx; simp at hx⟩
  · rw [if_neg hids]
    by_cases hsel : (db.games.filter (fun g => ids.contains g.id)).isEmpty = true
    · rw [if_pos hsel]
      rw [List.isEmpty_iff, List.filter_eq_nil_iff] at hsel
      constructor
      · simp only [List.map_nil]
        symm
        rw [List.filter_eq_nil_iff]
        intro i hi
        simp only [decide_eq_true_eq, List.mem_map]
        rintro ⟨g, hg, hgi⟩
        have := hsel g hg
        simp [hgi, hi] at this
      · intro x hx
        simp at hx
    · rw [if_neg hsel]
      constructor
      · rw [map_id_filterMap_find]
        refine List.filter_congr ?_
        intro i hi
        rw [decide_eq_decide]
        constructor
        · rintro ⟨x, hx, hxi⟩
          rw [List.mem_reverse] at hx
          obtain ⟨g, hg, hgi⟩ := (exists_attach_iff db _ i).mp ⟨x, hx, hxi⟩
          exact List.mem_map.mpr ⟨g, (List.mem_filter.mp hg).1, hgi⟩
        · intro hmem
          obtain ⟨g, hg, hgi⟩ := List.mem_map.mp hmem
          have hgf : g ∈ db.games.filter (fun g => ids.contains g.id) :=
            List.mem_filter.mpr ⟨hg, by simpa [hgi] using hi⟩
          obtain ⟨x, hx, hxi⟩ := (exists_attach_iff db _ i).mpr ⟨g, hgf, hgi⟩
          exact ⟨x, List.mem_reverse.mpr hx, hxi⟩
      · intro x hx
        obtain ⟨i, hi, hfind⟩ := List.mem_filterMap.mp hx
        have hxmem := List.mem_of_find?_eq_some hfind
        rw [List.mem_reverse] at hxmem
        have hxf : x.game ∈ db.games.filter (fun g => ids.contains g.id) := by
          rw [← attach_map_game db (db.games.filter (fun g => ids.contains g.id))]
          exact List.mem_map_of_mem _ hxmem
        exact (List.mem_filter.mp hxf).1

/-- C5 counterexample: on a store with no category of slug `"all"`, `getGames`
with `categories = ["all"]` returns the empty result, not the unfiltered
listing — `getGames` itself has no `"all"` sentinel (only
`getGamesByCategory` and the route's `filter(Boolean)` do). -/
theorem getGames_all_sentinel_counterexample :
    getGames dbOne none (some ["all"]) 1 12 ≠ getGames dbOne none none 1 12 := by
  decide

/-- C5 amended: an empty search string and an empty categories list behave
exactly like omitting the respective filter, and `getGamesByCategory` treats
a list containing `"all"` as "no category filter"; but `getGames` treats
`"all"` as an ordinary slug, so when no category has slug `"all"` it returns
the empty result instead of the unfiltered listing. -/
theorem getGames_sentinel_spec :
    (∀ (db : DB) (cats : Option (List String)) (page limit : Nat),
        getGames db (some "") cats page limit = getGames db none cats page limit) ∧
      (∀ (db : DB) (s : Option String) (page limit : Nat),
        getGames db s (some []) page limit = getGames db s none page limit) ∧
      (∀ (db : DB) (slugs : List String), slugs.contains "all" = true →
        getGamesByCategory db slugs = getAllGames db) ∧
      ∀ (db : DB) (s : Option String) (page limit : Nat),
        (∀ c ∈ db.categories, c.slug ≠ "all") →
        getGames db s (some ["all"]) page limit = { games := [], totalCount := 0 } := by
  have hfun : gameMatches (some "") = gameMatches none := by
    funext gids g
    simp [gameMatches]
  refine ⟨?_, ?_, ?_, ?_⟩
  · intro db cats page limit
    unfold getGames
    rw [hfun]
  · intro db s page limit
    unfold getGames categoryGameIds
    simp
  · intro db slugs hall
    have hcond : (slugs.isEmpty || slugs.contains "all" || slugs.head? == some "") = true := by
      have hmem : "all" ∈ slugs := by simpa using hall
      simp [hmem]
    unfold getGamesByCategory
    rw [if_pos hcond]
  · intro db s page limit hno
    have hfound : db.categories.filter
        (fun c => (["all"] : List String).contains c.slug) = [] := by
      rw [List.filter_eq_nil_iff]
      intro c hc
      simp [hno c hc]
    have hcat : categoryGameIds db (some ["all"]) = none := by
      unfold categoryGameIds
      simp only []
      rw [if_pos (by decide : (0 : Nat) < (["all"] : List String).length)]
      rw [hfound]
      simp
    unfold getGames
    rw [hcat]

theorem getGames_sentinel_spec_witness :
    (∀ c ∈ dbOne.categories, c.slug ≠ "all") ∧
      (["all", "action"] : List String).contains "all" = true ∧
      getGames dbOne none (some ["all"]) 1 12 = { games := [], totalCount := 0 } ∧
      getGamesByCategory dbOne ["all", "action"] = getAllGames dbOne := by
  refine ⟨by decide, by decide, ?_, ?_⟩
  · exact getGames_sentinel_spec.2.2.2 dbOne none 1 12 (by decide)
  · exact getGames_sentinel_spec.2.2.1 dbOne ["all", "action"] (by decide)

/-- An unfiltered `getGames` page has exactly `min limit totalGames` games:
the supplied limit is passed through with no cap. -/
theorem getGames_unfiltered_page_length (db : DB) (limit : Nat) :
    (getGames db none none 1 limit).games.length = min limit db.games.length := by
  have hfilter : db.games.filter (gameMatches none none) = db.games :=
    List.filter_eq_self.mpr (fun g _ => rfl)
  unfold getGames categoryGameIds
  simp only [hfilter, Nat.sub_self, Nat.zero_mul, List.drop_zero]
  by_cases h : (db.games.take limit).isEmpty = true
  · rw [if_pos h]
    rw [List.isEmpty_iff, List.take_eq_nil_iff] at h
    rcases h with h | h <;> simp [h]
  · rw [if_neg h]
    calc (attachCategoriesToGames db (db.games.take limit)).length
        = ((attachCategoriesToGames db (db.games.take limit)).map (·.game)).length :=
          (List.length_map _ _).symm
      _ = (db.games.take limit).length := by rw [attach_map_game]
      _ = min limit db.games.length := List.length_take _ _

/-- C9 counterexample: with 101 games in the store, a request with
`limit = 101` returns 101 games in one page — more than the claimed cap of
100 (the `gamesQuerySchema` `.max(100)` is never applied on the route). -/
theorem gamesRoute_limit_uncapped_counterexample :
    (gamesRouteGET db101 none (some 101) none none).games.length = 101 ∧
      100 < (gamesRouteGET db101 none (some 101) none none).games.length := by
  have h := getGames_unfiltered_page_length db101 101
  have hlen : db101.games.length = 101 := by
    simp [db101]
  have hg : (gamesRouteGET db101 none (some 101) none none).games.length = 101 := by
    simp only [gamesRouteGET, Option.getD_none, Option.getD_some]
    rw [h, hlen]
    simp
  exact ⟨hg, by rw [hg]; exact Nat.lt_succ_self 100⟩

/-- C9 amended: the route's effective limit defaults to 12 when the parameter
is absent and is otherwise the supplied value, uncapped: the page always
holds exactly `min limit totalGames` games, which exceeds 100 whenever the
caller supplies `limit > 100` and enough games exist. -/
theorem gamesRoute_limit_spec :
    ∀ (db : DB) (limitParam : Option Nat),
      (gamesRouteGET db none limitParam none none).limit = limitParam.getD 12 ∧
        (gamesRouteGET db none limitParam none none).games.length =
          min (limitParam.getD 12) db.games.length := by
  intro db limitParam
  refine ⟨rfl, ?_⟩
  simp only [gamesRouteGET, Option.getD_none]
  exact getGames_unfiltered_page_length db _

/-- C10: whenever the page offset is at or beyond the number of matching
games, the paginated select is empty and `getGames` reports
`{ games: [], totalCount: 0 }` — discarding the true match count — so the
route's derived `hasMore` is `false`. -/
theorem getGames_out_of_range_zero (db : DB) (s : Option String)
    (c : Option (List String)) (page limit : Nat)
    (h : (getGamesMatches db s c).length ≤ (page - 1) * limit) :
    getGames db s c page limit = { games := [], totalCount := 0 } ∧
      (gamesRouteGET db (some page) (some limit) s c).hasMore = false := by
  have hmain : getGames db s c page limit = { games := [], totalCount := 0 } := by
    unfold getGames
    unfold getGamesMatches at h
    cases hcat : categoryGameIds db c with
    | none => simp
    | some gids =>
      rw [hcat] at h
      simp only []
      have hdrop : (db.games.filter (gameMatches s gids)).drop ((page - 1) * limit) = [] :=
        List.drop_eq_nil_of_le h
      rw [hdrop]
      simp
  refine ⟨hmain, ?_⟩
  have ht : (getGames db s c page limit).totalCount = 0 := by rw [hmain]
  simp [gamesRouteGET, ht]

theorem getGames_out_of_range_zero_witness :
    (getGamesMatches dbOne none none).length = 1 ∧
      (getGamesMatches dbOne none none).length ≤ (2 - 1) * 12 ∧
      getGames dbOne none none 2 12 = { games := [], totalCount := 0 } ∧
      (gamesRouteGET dbOne (some 2) (some 12) none none).hasMore = false := by
  refine ⟨by decide, by decide, ?_, ?_⟩
  · exact (getGames_out_of_range_zero dbOne none none 2 12 (by decide)).1
  · exact (getGames_out_of_range_zero dbOne none none 2 12 (by decide)).2

/-- The tail of `getGamesQueryCount` after category resolution adds at most 3
queries (count + page + optional attachment). -/
theorem getGamesQueryCount_le_resolution_add_three (db : DB) (s : Option String)
    (cats : Option (List String)) (page limit : Nat) :
    getGamesQueryCount db s cats page limit ≤ categoryResolutionQueries db cats + 3 := by
  unfold getGamesQueryCount
  cases hcat : categoryGameIds db cats with
  | none => simp
  | some gids =>
    simp only []
    split <;> omega

/-- Category resolution issues at most 2 queries. -/
theorem categoryResolutionQueries_le_two (db : DB) (cats : Option (List String)) :
    categoryResolutionQueries db cats ≤ 2 := by
  unfold categoryResolutionQueries
  cases cats with
  | none => exact Nat.zero_le _
  | some filt =>
    simp only []
    split
    · split <;> omega
    · omega

/-- C6 counterexample: a category-filtered invocation on a populated store
issues 5 data-store queries (slug lookup, join-row lookup, count, page,
category attachment) — more than the claimed total of 3. -/
theorem getGames_query_count_counterexample :
    getGamesQueryCount dbOne none (some ["action"]) 1 12 = 5 ∧
      ¬ getGamesQueryCount dbOne none (some ["action"]) 1 12 ≤ 3 := by
  refine ⟨by decide, by decide⟩

/-- C6 amended: one `getGames` invocation issues at most 3 queries when no
category filter is given (count + page + at most one attachment join), and at
most 5 with a category filter (2 more to resolve slugs to game ids) — in all
cases a constant bound independent of how many games the page contains. -/
theorem getGames_query_count_bounds :
    ∀ (db : DB) (s : Option String) (cats : Option (List String)) (page limit : Nat),
      getGamesQueryCount db s none page limit ≤ 3 ∧
        getGamesQueryCount db s (some []) page limit ≤ 3 ∧
        getGamesQueryCount db s cats page limit ≤ 5 := by
  intro db s cats page limit
  refine ⟨?_, ?_, ?_⟩
  · have h := getGamesQueryCount_le_resolution_add_three db s none page limit
    simpa [categoryResolutionQueries] using h
  · have h := getGamesQueryCount_le_resolution_add_three db s (some []) page limit
    simpa [categoryResolutionQueries] using h
  · have h := getGamesQueryCount_le_resolution_add_three db s cats page limit
    have h2 := categoryResolutionQueries_le_two db cats
    omega

/-- C4 counterexample: on `db4` with `limit = 1`, the module implementation
returns game 2 (the first distinct candidate in join-row order) although game
3 shares strictly more categories with target game 1; the count-sort-take
selection the claim describes — and the legacy implementation — return game 3
instead. -/
theorem getRelatedGames_not_count_sorted_counterexample :
    (getRelatedGames db4 1 1).map (·.game.id) = [2] ∧
      specRelatedIds db4 1 1 = [3] ∧
      (getRelatedGames_legacy db4 1 1).map (·.game.id) = [3] ∧
      (getRelatedGames db4 1 1).map (·.game.id) ≠ specRelatedIds db4 1 1 := by
  refine ⟨by decide, by decide, by decide, by decide⟩

theorem jsDedup_append_singleton (l : List Nat) (a : Nat) :
    jsDedup (l ++ [a]) = if a ∈ jsDedup l then jsDedup l else jsDedup l ++ [a] := by
  unfold jsDedup
  rw [List.foldl_append]
  rfl

theorem jsDedup_mem (l : List Nat) (x : Nat) : x ∈ jsDedup l ↔ x ∈ l := by
  induction l using List.reverseRecOn with
  | nil => exact Iff.rfl
  | append_singleton l a ih =>
    rw [jsDedup_append_singleton]
    by_cases h : a ∈ jsDedup l
    · rw [if_pos h]
      rw [ih]
      constructor
      · exact fun hx => List.mem_append_left _ hx
      · intro hx
        rcases List.mem_append.mp hx with hx | hx
        · exact hx
        · simp only [List.mem_singleton] at hx
          subst hx
          exact ih.mp h
    · rw [if_neg h]
      simp [ih]

/-- The JS `Map`-count fold records each id's total multiplicity, keyed in
first-occurrence order. -/
theorem countsList_spec (l : List Nat) :
    (countsList l).map (·.1) = jsDedup l ∧
      ∀ p ∈ countsList l, p.2 = l.count p.1 := by
  induction l using List.reverseRecOn with
  | nil => exact ⟨rfl, by intro p hp; simp [countsList] at hp⟩
  | append_singleton l a ih =>
    obtain ⟨ihm, ihc⟩ := ih
    have hstep : countsList (l ++ [a]) = jsCountBump (countsList l) a := by
      unfold countsList
      rw [List.foldl_append]
      rfl
    rw [hstep, jsDedup_append_singleton]
    by_cases h : a ∈ jsDedup l
    · have hany : (countsList l).any (fun p => p.1 == a) = true := by
        rw [List.any_eq_true]
        rw [← ihm] at h
        obtain ⟨p, hp, hpa⟩ := List.mem_map.mp h
        exact ⟨p, hp, by simp [hpa]⟩
      rw [if_pos h]
      unfold jsCountBump
      rw [if_pos hany]
      constructor
      · rw [List.map_map, ← ihm]
        apply List.map_congr_left
        intro p _
        simp only [Function.comp_apply]
        split <;> rfl
      · intro p hp
        obtain ⟨q, hq, hqp⟩ := List.mem_map.mp hp
        by_cases hqa : (q.1 == a) = true
        · rw [if_pos hqa] at hqp
          have hq1 : q.1 = a := by simpa using hqa
          rw [← hqp]
          simp only [List.count_append, hq1]
          rw [ihc q hq, hq1]
          simp
        · rw [if_neg hqa] at hqp
          have hq1 : q.1 ≠ a := by simpa using hqa
          rw [← hqp]
          rw [List.count_append, ihc q hq]
          simp [List.count_singleton', hq1]
    · have hany : (countsList l).any (fun p => p.1 == a) = false := by
        rw [Bool.eq_false_iff]
        intro hcon
        rw [List.any_eq_true] at hcon
        obtain ⟨p, hp, hpa⟩ := hcon
        have : a ∈ (countsList l).map (·.1) :=
          List.mem_map.mpr ⟨p, hp, by simpa using hpa⟩
        rw [ihm] at this
        exact h this
      rw [if_neg h]
      unfold jsCountBump
      rw [hany]
      simp only [Bool.false_eq_true, if_false]
      constructor
      · rw [List.map_append, ihm]
        rfl
      · intro p hp
        rcases List.mem_append.mp hp with hp | hp
        · have hp1 : p.1 ≠ a := by
            intro he
            apply h
            rw [← ihm]
            exact List.mem_map.mpr ⟨p, hp, he⟩
          rw [List.count_append, ihc p hp]
          simp [List.count_singleton', hp1]
        · simp only [List.mem_singleton] at hp
          subst hp
          have hnotl : a ∉ l := fun hc => h ((jsDedup_mem l a).mpr hc)
          simp [List.count_append, List.count_eq_zero.mpr hnotl]

/-- C4 amended: both implementations return `[]` when the target game has no
category join rows; the legacy implementation's candidate counts are the
shared-join-row multiplicities in first-occurrence order, and its selection
is the top `limit` of a stable descending sort of those counts, so every
selected candidate's shared count dominates every unselected candidate's; the
module implementation instead takes the first `limit` distinct candidate ids
in join-row order without ranking (see the counterexample). -/
theorem getRelatedGames_legacy_count_sort_spec :
    (∀ (db : DB) (gid limit : Nat),
        db.gameCategories.filter (fun gc => gc.gameId == gid) = [] →
        getRelatedGames db gid limit = [] ∧ getRelatedGames_legacy db gid limit = []) ∧
      (∀ (db : DB) (gid limit : Nat),
        List.Sorted countGE ((legacyCounts db gid).insertionSort countGE) ∧
          ((legacyCounts db gid).insertionSort countGE).Perm (legacyCounts db gid) ∧
          ∀ p ∈ ((legacyCounts db gid).insertionSort countGE).take limit,
            ∀ q ∈ ((legacyCounts db gid).insertionSort countGE).drop limit,
              q.2 ≤ p.2) ∧
      ∀ (db : DB) (gid : Nat),
        (legacyCounts db gid).map (·.1) =
            jsDedup ((legacyRelatedRelations db gid).map (·.gameId)) ∧
          ∀ p ∈ legacyCounts db gid,
            p.2 = ((legacyRelatedRelations db gid).map (·.gameId)).count p.1 := by
  refine ⟨?_, ?_, ?_⟩
  · intro db gid limit h
    constructor
    · unfold getRelatedGames
      rw [h]
      rfl
    · have hby : ∀ cg, getGameById_legacy db gid = some cg → cg.categories = [] := by
        intro cg hf
        unfold getGameById_legacy at hf
        cases hg : db.games.find? (fun g => g.id == gid) with
        | none =>
          rw [hg] at hf
          exact absurd hf (by simp)
        | some g =>
          rw [hg] at hf
          simp only [] at hf
          rw [h] at hf
          simp only [List.map_nil, List.isEmpty_nil, if_true, Option.some.injEq] at hf
          rw [← hf]
      unfold getRelatedGames_legacy
      cases hf : getGameById_legacy db gid with
      | none => rfl
      | some cg =>
        have hc := hby cg hf
        simp only []
        rw [if_pos (by rw [hc]; rfl)]
  · intro db gid limit
    have hs := List.sorted_insertionSort countGE (legacyCounts db gid)
    refine ⟨hs, List.perm_insertionSort countGE _, ?_⟩
    intro p hp q hq
    rw [← List.take_append_drop limit ((legacyCounts db gid).insertionSort countGE)] at hs
    exact (List.pairwise_append.mp hs).2.2 p hp q hq
  · intro db gid
    exact countsList_spec _

theorem getRelatedGames_legacy_count_sort_spec_witness :
    dbOne.gameCategories.filter (fun gc => gc.gameId == 2) = [] ∧
      getRelatedGames dbOne 2 4 = [] ∧ getRelatedGames_legacy dbOne 2 4 = [] := by
  refine ⟨by decide, ?_, ?_⟩
  · exact (getRelatedGames_legacy_count_sort_spec.1 dbOne 2 4 (by decide)).1
  · exact (getRelatedGames_legacy_count_sort_spec.1 dbOne 2 4 (by decide)).2

end GamerBoy
